import Mathlib

/-!
Verification of the credential-resolution flows of the exp CLI.

Source files embedded here:
* src/src/commands/build/IOSBuilder.js — contains two revisions of the iOS
  builder class: a newer batch flow (runLocalAuth / runningAsCI /
  runningAsExpoManaged / runningAsExpert, lines 124-430) and an older
  per-field flow (collectAndValidateCredentials / askForAppleId /
  askForCerts / askForPushCerts, lines 464-888).
* src/unnamed/part_000 — the Android builder (AndroidBuilder), of which we
  embed the destructive clear-credentials flow.

Modelling conventions:
* JavaScript values are modelled by the inductive JsValue (strings,
  undefined, booleans, null and plain objects); JavaScript objects are
  association lists of JsValue keyed by strings (first occurrence wins for
  reads, in-place update for writes, matching JS property semantics).
* The effectful flows become pure functions from their external inputs —
  the environment snapshot, the file system (a function from path to
  optional base64 content), the operator's prompt answers, and the remote
  service's replies — to a pair of (a) a trace of observable events
  (prompts, network calls, warnings) and (b) an Except value: normal
  return or thrown error.
* Prompt rendering, spinners and plain informational logging are not
  observable events; warnings that a claim mentions are events.
* Path normalization (untildify / path.resolve) is modelled as the
  identity on the oracle-provided answers, since paths are opaque here.
-/

/-- JavaScript runtime values, restricted to the shapes that flow through
the credential code: strings, undefined, booleans, null and plain
objects. -/
inductive JsValue where
  | str (s : String)
  | jsUndefined
  | jsBool (b : Bool)
  | jsNull
  | obj (fields : List (String × JsValue))

/-- A JavaScript object: an association list from property name to value. -/
abbrev JsObj := List (String × JsValue)

/-- Property read: the first binding wins; a missing property reads as
undefined, as in JavaScript. -/
def getKey (o : JsObj) (k : String) : JsValue :=
  match o.find? (fun p => p.1 == k) with
  | some p => p.2
  | none => .jsUndefined

/-- Property write: updates the first binding in place if the key exists,
else appends — matching JS property insertion order semantics. -/
def setKey : JsObj → String → JsValue → JsObj
  | [], k, v => [(k, v)]
  | (k', v') :: rest, k, v =>
    if k' == k then (k', v) :: rest else (k', v') :: setKey rest k v

/-- Whether the object has the property (Object.keys membership). -/
def hasKey (o : JsObj) (k : String) : Bool :=
  o.any (fun p => p.1 == k)

/-- Property deletion / rest-destructuring that drops one key, as in
`const \x7b result, ...creds \x7d = credsStarter`. -/
def removeKey (o : JsObj) (k : String) : JsObj :=
  o.filter (fun p => !(p.1 == k))

/-- JavaScript truthiness for the values we model. -/
def truthy : JsValue → Bool
  | .str s => !(s == "")
  | .jsUndefined => false
  | .jsBool b => b
  | .jsNull => false
  | .obj _ => true

/-- Truthiness of an optional environment variable (process.env.X is a
string when set, undefined when unset; the empty string is falsy). -/
def truthyOpt : Option String → Bool
  | some s => !(s == "")
  | none => false

/-- Whether a value is a string (typeof v === 'string'). -/
def isStr : JsValue → Bool
  | .str _ => true
  | _ => false

/-- Lift an optional environment string to the JsValue it denotes. -/
def optJs : Option String → JsValue
  | some s => .str s
  | none => .jsUndefined

/-- Minimal JSON string escaping (quote and backslash; other escapes are
irrelevant to every claim, which only depend on the result being a
string). -/
def escapeJson (s : String) : String :=
  s.foldl (fun acc c =>
    if c = '\"' then acc ++ "\\\"" else if c = '\\' then acc ++ "\\\\" else acc.push c) ""

mutual

/-- Rendering of a defined value by JSON.stringify. Fields holding
undefined are omitted from object renderings, as JSON.stringify does. -/
def jsonRender : JsValue → String
  | .str s => "\"" ++ escapeJson s ++ "\""
  | .jsBool b => cond b "true" "false"
  | .jsNull => "null"
  | .jsUndefined => "undefined"
  | .obj fields => "\x7b" ++ String.intercalate "," (jsonRenderFields fields) ++ "\x7d"

/-- Rendering of the fields of an object for jsonRender. -/
def jsonRenderFields : List (String × JsValue) → List String
  | [] => []
  | (k, v) :: rest =>
    match v with
    | .jsUndefined => jsonRenderFields rest
    | .str s => ("\"" ++ escapeJson k ++ "\":" ++ jsonRender (JsValue.str s)) :: jsonRenderFields rest
    | .jsBool b => ("\"" ++ escapeJson k ++ "\":" ++ jsonRender (JsValue.jsBool b)) :: jsonRenderFields rest
    | .jsNull => ("\"" ++ escapeJson k ++ "\":" ++ jsonRender JsValue.jsNull) :: jsonRenderFields rest
    | .obj fs => ("\"" ++ escapeJson k ++ "\":" ++ jsonRender (JsValue.obj fs)) :: jsonRenderFields rest

end

/-- JSON.stringify as used by the code: it returns a string for every
defined value, and returns undefined (not a string!) when applied to
undefined. -/
def jsonStringify (v : JsValue) : JsValue :=
  match v with
  | .jsUndefined => .jsUndefined
  | v => .str (jsonRender v)

/-- The per-value policy of IOSBuilder._copyOverAsString: a string is
copied verbatim, any other value goes through JSON.stringify. -/
def coerceForCopy (v : JsValue) : JsValue :=
  if isStr v then v else jsonStringify v

/-- IOSBuilder._copyOverAsString (new revision, lines 234-243): for each
key of the reply object, assign the string verbatim or the
JSON.stringified value into the credentials starter object. -/
def copyOverAsString (credsStarter : JsObj) : JsObj → JsObj
  | [] => credsStarter
  | (k, v) :: rest => copyOverAsString (setKey credsStarter k (coerceForCopy v)) rest

/-- OBLIGATORY_CREDS_KEYS from the new revision of IOSBuilder.js (the JS
Set preserves insertion order). -/
def OBLIGATORY_CREDS_KEYS : List String :=
  ["certP12", "certPassword", "pushP12", "pushPassword", "provisioningProfile", "teamId"]

/-- The list of obligatory keys absent from a credentials object, in the
order IOSBuilder._areCredsMissing traverses them. The real method warns
when this list is nonempty and invokes its optional callback once per
missing key; it never throws. -/
def missingCreds (creds : JsObj) : List String :=
  OBLIGATORY_CREDS_KEYS.filter (fun k => !(hasKey creds k))

/-- Whether a service reply signals failure (replyAttempt.result ===
'failure'). -/
def isFailure (a : JsObj) : Bool :=
  match getKey a "result" with
  | .str s => s == "failure"
  | _ => false

/-- Errors thrown by the embedded flows. -/
inductive JsError where
  | xdlError (code : String)
  | serviceFailure (reason rawDump : JsValue)
  | typeErr (what : String)
  | fsReadError (path : Option String)
  | validationError (kind : String)

/-- The guard `attempt.result === 'failure' && attempt.reason.startsWith(p)`:
when the reply is a failure whose reason is not a string, the property
access .startsWith throws, which we surface as a typeErr. -/
def failureReasonStartsWith (a : JsObj) (p : String) : Except JsError Bool :=
  if isFailure a then
    match getKey a "reason" with
    | .str r => .ok (r.startsWith p)
    | _ => .error (.typeErr "reason.startsWith")
  else .ok false

/-- IOSBuilder._throwIfFailureWithReasonDump (lines 403-411): throw an
error carrying the reply's reason and raw dump when the reply is a
failure; otherwise do nothing. -/
def throwIfFailureWithReasonDump (a : JsObj) : Except JsError Unit :=
  if isFailure a then .error (.serviceFailure (getKey a "reason") (getKey a "rawDump"))
  else .ok ()

/-- Observable events of the flows: prompts shown to the operator, remote
network calls, and the warnings the claims mention. -/
inductive Event where
  | prompt (name : String)
  | checkStatus
  | fetchCreds
  | updateCreds (platform : String) (creds : JsObj)
  | removeCreds (platform : String)
  | validateCreds (platform kind : String)
  | ensureAppIdRemote
  | fetchAppleCerts
  | fetchPushCerts
  | validateApple
  | ensureAppIdLocal
  | createAppPortal
  | produceCertsCall
  | producePushCertsCall
  | produceProvisionCall
  | publish
  | build (platform : String)
  | warnMissing (keys : List String)
  | warnRemoveProfileHint
  | warnEncrypted
  | warnRemovedCreds

/-- Whether an event is an interactive prompt. -/
def isPromptEvt : Event → Bool
  | .prompt _ => true
  | _ => false

/-- Whether an event is a managed-generation (or credential service
authentication) call to the external service. -/
def isManagedGenEvt : Event → Bool
  | .validateApple => true
  | .ensureAppIdLocal => true
  | .createAppPortal => true
  | .produceCertsCall => true
  | .producePushCertsCall => true
  | .produceProvisionCall => true
  | .fetchAppleCerts => true
  | .fetchPushCerts => true
  | _ => false

/-- Whether an event touches credentials at all: resolution prompts,
fetch, validation, managed generation, or store mutation. -/
def isCredentialOpEvt : Event → Bool
  | .prompt _ => true
  | .fetchCreds => true
  | .updateCreds _ _ => true
  | .removeCreds _ => true
  | .validateCreds _ _ => true
  | .ensureAppIdRemote => true
  | .fetchAppleCerts => true
  | .fetchPushCerts => true
  | .validateApple => true
  | .ensureAppIdLocal => true
  | .createAppPortal => true
  | .produceCertsCall => true
  | .producePushCertsCall => true
  | .produceProvisionCall => true
  | _ => false

/-- Sequencing of two trace-producing steps with exception propagation. -/
def seqE {α β : Type} (r : List Event × Except JsError α)
    (f : α → List Event × Except JsError β) : List Event × Except JsError β :=
  match r with
  | (t, .error e) => (t, .error e)
  | (t, .ok a) =>
    let s := f a
    (t ++ s.1, s.2)

/-- IOSBuilder._ensureAppExists (new revision, lines 245-263): ask the
service whether the app id exists; on a failure whose reason starts with
the NO_BUNDLE_ID tag, create the app on the portal once and use that
reply instead; then throw if the (possibly replaced) reply is a failure,
else copy its fields into the credentials starter. The NO_BUNDLE_ID tag
lives in the external auth module, so it is a parameter here. -/
def ensureAppExistsM (noBundleId : String) (svcEnsure svcCreate : JsObj)
    (credsStarter : JsObj) : List Event × Except JsError JsObj :=
  let t0 := [Event.ensureAppIdLocal]
  match failureReasonStartsWith svcEnsure noBundleId with
  | .error e => (t0, .error e)
  | .ok retry =>
    let t1 := if retry then [Event.createAppPortal] else []
    let attempt := if retry then svcCreate else svcEnsure
    match throwIfFailureWithReasonDump attempt with
    | .error e => (t0 ++ t1, .error e)
    | .ok _ => (t0 ++ t1, .ok (copyOverAsString credsStarter attempt))

/-- IOSBuilder.produceProvisionProfile (new revision, lines 265-281): one
call to the service's provisioning-profile generation; on a failure whose
reason starts with the MULTIPLE_PROFILES tag, warn with a remediation
hint; then throw if the reply is a failure, else copy its fields. The
MULTIPLE_PROFILES tag lives in the external auth module, so it is a
parameter here. -/
def produceProvisionProfileM (multipleProfiles : String) (svcReply : JsObj)
    (credsStarter : JsObj) : List Event × Except JsError JsObj :=
  let t0 := [Event.produceProvisionCall]
  match failureReasonStartsWith svcReply multipleProfiles with
  | .error e => (t0, .error e)
  | .ok multi =>
    let t1 := if multi then [Event.warnRemoveProfileHint] else []
    match throwIfFailureWithReasonDump svcReply with
    | .error e => (t0 ++ t1, .error e)
    | .ok _ => (t0 ++ t1, .ok (copyOverAsString credsStarter svcReply))

/-- AndroidBuilder._clearCredentials (src/unnamed/part_000, lines 29-77):
warn about backups and permanence (warnings elided as non-events), ask for
explicit confirmation, and issue the remote deletion only when the
operator confirms; declining performs no remote call and the function
returns normally. The localKeystoreExists input only selects which
informational warnings are printed. -/
def clearCredentialsAndroid (localKeystoreExists confirm : Bool) :
    List Event × Except JsError Unit :=
  let _ := localKeystoreExists
  ([Event.prompt "confirm"] ++ (if confirm then [Event.removeCreds "android"] else []),
   .ok ())

/-- The environment snapshot read by IOSBuilder.runningAsCI (new revision,
lines 177-193): six variables, each either a string or unset. -/
structure CIEnv where
  teamId : Option String
  distCertPath : Option String
  distCertPassword : Option String
  pushCertPath : Option String
  pushCertPassword : Option String
  provProfilePath : Option String

/-- Reading the file named by an environment path variable:
fs.readFile(undefined) rejects, as does reading a nonexistent file. The
readFile oracle returns the base64 rendering of the file's bytes. -/
def readEnvFile (readFile : String → Option String) : Option String → Except JsError String
  | none => .error (.fsReadError none)
  | some p =>
    match readFile p with
    | none => .error (.fsReadError (some p))
    | some content => .ok content

/-- IOSBuilder.runningAsCI (new revision, lines 177-193): build the creds
object from the six environment variables, then build the merged object
literal that replaces the three path entries by the base64 contents of
the files they name (evaluated in source order: provisioningProfile,
certP12, pushP12 — the first failing read throws), and copy everything
into the credentials starter via _copyOverAsString. No prompt and no
managed-generation call occurs on this path. -/
def runningAsCI (env : CIEnv) (readFile : String → Option String)
    (credsStarter : JsObj) : Except JsError JsObj :=
  match readEnvFile readFile env.provProfilePath with
  | .error e => .error e
  | .ok provContent =>
    match readEnvFile readFile env.distCertPath with
    | .error e => .error e
    | .ok certContent =>
      match readEnvFile readFile env.pushCertPath with
      | .error e => .error e
      | .ok pushContent =>
        .ok (copyOverAsString credsStarter
          [("teamId", optJs env.teamId),
           ("certP12", .str certContent),
           ("certPassword", optJs env.distCertPassword),
           ("pushP12", .str pushContent),
           ("pushPassword", optJs env.pushCertPassword),
           ("provisioningProfile", .str provContent)])

/-- The operator's answers to the interactive prompts of the new-revision
flow, captured as an oracle (inquirer resolves each shown question with
one of these). -/
structure PromptAnswers where
  isExpoManaged : Bool
  appleId : String
  applePassword : String
  distCertExpoManaged : Bool
  pushCertExpoManaged : Bool
  distP12Path : String
  distP12Password : String
  pushP12Path : String
  pushP12Password : String
  provProfilePathAnswer : String

/-- The external credential service's replies for one run of the
new-revision flow (the auth module is an external collaborator; replies
are plain objects with a result field, a reason/rawDump on failure, and
payload fields on success). -/
structure ServiceReplies where
  validateApple : JsObj
  ensureAppLocal : JsObj
  createAppPortal : JsObj
  produceCerts : JsObj
  producePushCerts : JsObj
  produceProvision : JsObj

/-- The three per-slot choices iterated by the new-revision flow, in the
object-key order of runningAsExpoManaged (distCert, pushCert,
provisioningProfile). -/
inductive OverrideChoice where
  | distCert
  | pushCert
  | provisioningProfile

/-- IOSBuilder.userProvidedOverride (new revision, lines 204-232): prompt
for the file path (and password where the slot has one), read the file,
and copy the base64 content plus password into the credentials starter. -/
def userProvidedOverride (ans : PromptAnswers) (readFile : String → Option String)
    (credsStarter : JsObj) : OverrideChoice → List Event × Except JsError JsObj
  | .distCert =>
    let t := [Event.prompt "pathToP12", Event.prompt "p12Password"]
    match readFile ans.distP12Path with
    | none => (t, .error (.fsReadError (some ans.distP12Path)))
    | some content =>
      (t, .ok (copyOverAsString credsStarter
        [("certP12", .str content), ("certPassword", .str ans.distP12Password)]))
  | .pushCert =>
    let t := [Event.prompt "pathToP12", Event.prompt "p12Password"]
    match readFile ans.pushP12Path with
    | none => (t, .error (.fsReadError (some ans.pushP12Path)))
    | some content =>
      (t, .ok (copyOverAsString credsStarter
        [("pushP12", .str content), ("pushPassword", .str ans.pushP12Password)]))
  | .provisioningProfile =>
    let t := [Event.prompt "pathToProvisioningProfile"]
    match readFile ans.provProfilePathAnswer with
    | none => (t, .error (.fsReadError (some ans.provProfilePathAnswer)))
    | some content =>
      (t, .ok (copyOverAsString credsStarter [("provisioningProfile", .str content)]))

/-- IOSBuilder.expoManagedResource (new revision, lines 283-305): delegate
one slot to the service, throw on failure, and copy the reply's fields
into the credentials starter; the provisioning-profile case goes through
produceProvisionProfile with its MULTIPLE_PROFILES hint. -/
def expoManagedResource (multipleProfiles : String) (svc : ServiceReplies)
    (credsStarter : JsObj) : OverrideChoice → List Event × Except JsError JsObj
  | .distCert =>
    let t := [Event.produceCertsCall]
    match throwIfFailureWithReasonDump svc.produceCerts with
    | .error e => (t, .error e)
    | .ok _ => (t, .ok (copyOverAsString credsStarter svc.produceCerts))
  | .pushCert =>
    let t := [Event.producePushCertsCall]
    match throwIfFailureWithReasonDump svc.producePushCerts with
    | .error e => (t, .error e)
    | .ok _ => (t, .ok (copyOverAsString credsStarter svc.producePushCerts))
  | .provisioningProfile =>
    produceProvisionProfileM multipleProfiles svc.produceProvision credsStarter

/-- IOSBuilder.runningAsExpert (new revision, lines 195-200): the operator
provides each of the three slots in order. -/
def runningAsExpert (ans : PromptAnswers) (readFile : String → Option String)
    (credsStarter : JsObj) : List Event × Except JsError JsObj :=
  seqE (userProvidedOverride ans readFile credsStarter .distCert) fun c1 =>
  seqE (userProvidedOverride ans readFile c1 .pushCert) fun c2 =>
  userProvidedOverride ans readFile c2 .provisioningProfile

/-- IOSBuilder.runningAsExpoManaged (new revision, lines 322-347): ask
which of distCert/pushCert the operator will provide (the provisioning
profile is always service-managed), then resolve the three slots in
object-key order, delegating each to the service or to the operator. -/
def runningAsExpoManaged (multipleProfiles : String) (ans : PromptAnswers)
    (svc : ServiceReplies) (readFile : String → Option String)
    (credsStarter : JsObj) : List Event × Except JsError JsObj :=
  let step := fun (manages : Bool) (cs : JsObj) (choice : OverrideChoice) =>
    if manages then expoManagedResource multipleProfiles svc cs choice
    else userProvidedOverride ans readFile cs choice
  seqE ([Event.prompt "distCert", Event.prompt "pushCert"], .ok credsStarter) fun cs0 =>
  seqE (step ans.distCertExpoManaged cs0 .distCert) fun cs1 =>
  seqE (step ans.pushCertExpoManaged cs1 .pushCert) fun cs2 =>
  step true cs2 .provisioningProfile

/-- IOSBuilder._validateCredsEnsureAppExists (new revision, lines
307-320): prompt for the Apple id and password, validate them with the
service (throwing on failure), store the produced team id directly into
the credentials starter, and ensure the app id exists. -/
def validateCredsEnsureAppExistsM (noBundleId : String) (ans : PromptAnswers)
    (svc : ServiceReplies) (credsStarter : JsObj) : List Event × Except JsError JsObj :=
  let _appleCredentials := (ans.appleId, ans.applePassword)
  let t0 := [Event.prompt "appleId", Event.prompt "password", Event.validateApple]
  match throwIfFailureWithReasonDump svc.validateApple with
  | .error e => (t0, .error e)
  | .ok _ =>
    let cs := setKey credsStarter "teamId" (getKey svc.validateApple "teamId")
    let s := ensureAppExistsM noBundleId svc.ensureAppLocal svc.createAppPortal cs
    (t0 ++ s.1, s.2)

/-- IOSBuilder.runLocalAuth (new revision, lines 363-401): fetch the
stored bundle; compute whether all obligatory keys are present (the
missing-keys check only warns). In CI mode, resolve everything from the
environment and commit unconditionally. Otherwise, when keys are missing
(or nothing is stored), prompt for a strategy, validate the Apple account
and app id, run the managed or expert resolution, warn about any keys
still missing, and commit. When the cached bundle already has every
obligatory key, use it unchanged with no further call. The returned
object is the bundle in effect at the end of the flow. -/
def runLocalAuth (useCi : Bool) (fetchResult : Option JsObj) (env : CIEnv)
    (readFile : String → Option String) (ans : PromptAnswers) (svc : ServiceReplies)
    (noBundleId multipleProfiles : String) : List Event × Except JsError JsObj :=
  let credsStarter := fetchResult.getD []
  let warnT : List Event :=
    match fetchResult with
    | some cs => if missingCreds cs = [] then [] else [Event.warnMissing (missingCreds cs)]
    | none => []
  let clientHasAllNeededCreds : Bool :=
    match fetchResult with
    | some cs => decide (missingCreds cs = [])
    | none => false
  let t0 := Event.fetchCreds :: warnT
  if useCi then
    match runningAsCI env readFile credsStarter with
    | .error e => (t0, .error e)
    | .ok cs =>
      let warn2 := if missingCreds cs = [] then [] else [Event.warnMissing (missingCreds cs)]
      (t0 ++ warn2 ++ [Event.updateCreds "ios" cs, Event.warnEncrypted], .ok cs)
  else if clientHasAllNeededCreds then
    (t0, .ok credsStarter)
  else
    let s := seqE (validateCredsEnsureAppExistsM noBundleId ans svc credsStarter) fun cs1 =>
      if ans.isExpoManaged then runningAsExpoManaged multipleProfiles ans svc readFile cs1
      else runningAsExpert ans readFile cs1
    match s with
    | (t, .error e) => (t0 ++ [Event.prompt "isExpoManaged"] ++ t, .error e)
    | (t, .ok cs2) =>
      let creds := removeKey cs2 "result"
      let warn3 := if missingCreds creds = [] then [] else [Event.warnMissing (missingCreds creds)]
      (t0 ++ [Event.prompt "isExpoManaged"] ++ t ++ warn3 ++
        [Event.updateCreds "ios" creds, Event.warnEncrypted], .ok creds)

/-- The project metadata produced by Exp.getPublishInfoAsync (a local,
non-network read): the bundle identifier may be absent (undefined). -/
structure PublishInfo where
  username : String
  experienceName : String
  bundleIdentifier : JsValue

/-- The builder options relevant to the embedded flows: clearCredentials
(the -c flag), useCi (non-interactive mode, new revision only) and the
build type (options.type; a simulator build is type 'simulator'). -/
structure BuildOptions where
  clearCredentials : Bool
  useCi : Bool
  buildType : Option String

/-- IOSBuilder.run (new revision, lines 125-175): throw INVALID_OPTIONS
before any network call when the bundle identifier is missing; then check
build status, delete the stored credentials when clearCredentials is set
(note: before the simulator check), run the local-auth resolution unless
the build is for the simulator, and finally publish and build. -/
def runV1 (info : PublishInfo) (opts : BuildOptions) (fetchResult : Option JsObj)
    (env : CIEnv) (readFile : String → Option String) (ans : PromptAnswers)
    (svc : ServiceReplies) (noBundleId multipleProfiles : String) :
    List Event × Except JsError Unit :=
  if truthy info.bundleIdentifier = false then
    ([], .error (.xdlError "INVALID_OPTIONS"))
  else
    let t0 := [Event.checkStatus]
    let t1 := if opts.clearCredentials then [Event.removeCreds "ios", Event.warnRemovedCreds] else []
    if opts.buildType ≠ some "simulator" then
      match runLocalAuth opts.useCi fetchResult env readFile ans svc noBundleId multipleProfiles with
      | (t, .error e) => (t0 ++ t1 ++ t, .error e)
      | (t, .ok _) => (t0 ++ t1 ++ t ++ [Event.publish, Event.build "ios"], .ok ())
    else
      (t0 ++ t1 ++ [Event.publish, Event.build "ios"], .ok ())

/-- The environment snapshot read by the legacy-revision iOS flow:
EXP_APPLE_ID, EXP_APPLE_PASSWORD, EXP_APPLE_TEAM_ID,
EXP_DIST_CERTIFICATE_PATH, EXP_DIST_CERTIFICATE_PASSWORD,
EXP_PUSH_CERTIFICATE_PATH, EXP_PUSH_CERTIFICATE_PASSWORD. -/
structure LegacyEnv where
  appleId : Option String
  applePassword : Option String
  appleTeamId : Option String
  distCertPath : Option String
  distCertPassword : Option String
  pushCertPath : Option String
  pushCertPassword : Option String

/-- The operator's answers for the legacy-revision prompts (an oracle:
each shown question resolves with the corresponding field; inquirer's
validators re-ask until satisfied, so the oracle holds the final accepted
answer). -/
structure LegacyAnswers where
  appleId : String
  password : String
  teamId : String
  manageCertificates : Bool
  certPathAnswer : String
  certPasswordAnswer : String
  pushPathAnswer : String
  pushPasswordAnswer : String

/-- Resolution of one text field that an environment variable can
pre-answer: a truthy environment value suppresses the prompt and wins the
Object.assign merge (its key survives in environmentAnswers); a falsy or
absent one is deleted by the when-handler and the operator is prompted. -/
def envOrPrompt (envVal : Option String) (promptName : String) (answer : String) :
    List Event × String :=
  if truthyOpt envVal then ([], envVal.getD "")
  else ([Event.prompt promptName], answer)

/-- IOSBuilder.askForAppleId (legacy revision, lines 565-642): resolve
appleId/password/teamId each from the environment or a prompt, validate
the triple with the service (throwing on rejection), then upsert just
these three fields. -/
def askForAppleId (env : LegacyEnv) (ans : LegacyAnswers) (validateOk : String → Bool) :
    List Event × Except JsError Unit :=
  let (tA, appleIdVal) := envOrPrompt env.appleId "appleId" ans.appleId
  let (tP, pwVal) := envOrPrompt env.applePassword "password" ans.password
  let (tT, teamVal) := envOrPrompt env.appleTeamId "teamId" ans.teamId
  let creds : JsObj :=
    [("appleId", .str appleIdVal), ("password", .str pwVal), ("teamId", .str teamVal)]
  let tv := [Event.validateCreds "ios" "appleId"]
  if validateOk "appleId" then
    (tA ++ tP ++ tT ++ tv ++ [Event.updateCreds "ios" creds], .ok ())
  else
    (tA ++ tP ++ tT ++ tv, .error (.validationError "appleId"))

/-- IOSBuilder.askForCerts (legacy revision, lines 644-756): if either
distribution-certificate environment variable is truthy, the strategy
question is skipped and manageCertificates is forced to false; otherwise
the operator chooses. Managed: fetch certificates from the service.
Upload: take the path from the environment when truthy and naming a real
file (else prompt), the password from the environment when truthy (else
prompt), read the file, validate, and upsert certP12/certPassword. -/
def askForCerts (env : LegacyEnv) (ans : LegacyAnswers) (fileIsFile : String → Bool)
    (readFile : String → Option String) (validateOk : String → Bool) :
    List Event × Except JsError Unit :=
  let manage0 := !(truthyOpt env.distCertPath || truthyOpt env.distCertPassword)
  let (t1, manageFinal) :=
    if manage0 then ([Event.prompt "manageCertificates"], ans.manageCertificates)
    else (([] : List Event), false)
  if manageFinal then
    (t1 ++ [Event.fetchAppleCerts], .ok ())
  else
    let (t2, pathVal) :=
      match env.distCertPath with
      | some p =>
        if !(p == "") then
          if fileIsFile p then (([] : List Event), p)
          else ([Event.prompt "pathToP12"], ans.certPathAnswer)
        else ([Event.prompt "pathToP12"], ans.certPathAnswer)
      | none => ([Event.prompt "pathToP12"], ans.certPathAnswer)
    let (t3, pwVal) :=
      match env.distCertPassword with
      | some pw =>
        if !(pw == "") then (([] : List Event), pw)
        else ([Event.prompt "certPassword"], ans.certPasswordAnswer)
      | none => ([Event.prompt "certPassword"], ans.certPasswordAnswer)
    match readFile pathVal with
    | none => (t1 ++ t2 ++ t3, .error (.fsReadError (some pathVal)))
    | some content =>
      let creds : JsObj := [("certP12", .str content), ("certPassword", .str pwVal)]
      let tv := [Event.validateCreds "ios" "cert"]
      if validateOk "cert" then
        (t1 ++ t2 ++ t3 ++ tv ++ [Event.updateCreds "ios" creds], .ok ())
      else (t1 ++ t2 ++ t3 ++ tv, .error (.validationError "cert"))

/-- IOSBuilder.askForPushCerts (legacy revision, lines 758-867). The
environmentAnswers object has keys pathToP12, certPassword and
managePushCertificates, but every when-handler tests the misspelled
property name manageCertificates: question 1 (the manage-vs-upload
strategy choice, named managePushCertificates) reads
environmentAnswers.manageCertificates — always undefined — so its handler
always logs and returns false and the strategy prompt is NEVER shown;
questions 2 and 3 read answers.manageCertificates /
environmentAnswers.manageCertificates — also always undefined — so they
always fall through to the environment checks and prompt for a path and
password whenever the corresponding variable is not usable. After the
merge, answers.managePushCertificates is the untouched environment
default: true exactly when both push variables are falsy, in which case
the service fetch runs and any prompted path/password is ignored. -/
def askForPushCerts (env : LegacyEnv) (ans : LegacyAnswers) (fileIsFile : String → Bool)
    (readFile : String → Option String) (validateOk : String → Bool) :
    List Event × Except JsError Unit :=
  let managePush := !(truthyOpt env.pushCertPath || truthyOpt env.pushCertPassword)
  let t1 : List Event := []
  let (t2, pathVal) :=
    match env.pushCertPath with
    | some p =>
      if !(p == "") then
        if fileIsFile p then (([] : List Event), p)
        else ([Event.prompt "pathToP12"], ans.pushPathAnswer)
      else ([Event.prompt "pathToP12"], ans.pushPathAnswer)
    | none => ([Event.prompt "pathToP12"], ans.pushPathAnswer)
  let (t3, pwVal) :=
    match env.pushCertPassword with
    | some pw =>
      if !(pw == "") then (([] : List Event), pw)
      else ([Event.prompt "certPassword"], ans.pushPasswordAnswer)
    | none => ([Event.prompt "certPassword"], ans.pushPasswordAnswer)
  if managePush then
    (t1 ++ t2 ++ t3 ++ [Event.fetchPushCerts], .ok ())
  else
    match readFile pathVal with
    | none => (t1 ++ t2 ++ t3, .error (.fsReadError (some pathVal)))
    | some content =>
      let creds : JsObj := [("pushP12", .str content), ("pushPassword", .str pwVal)]
      let tv := [Event.validateCreds "ios" "push"]
      if validateOk "push" then
        (t1 ++ t2 ++ t3 ++ tv ++ [Event.updateCreds "ios" creds], .ok ())
      else (t1 ++ t2 ++ t3 ++ tv, .error (.validationError "push"))

/-- IOSBuilder.collectAndValidateCredentials (legacy revision, lines
501-563): fetch the stored bundle; with clearCredentials set or nothing
stored, treat every slot as absent; otherwise a slot is present when its
stored value is truthy. Then, per slot in order appleId / cert / appId /
push: collect the missing slot interactively (committing it immediately)
or validate the existing one remotely, failing on the first rejection. -/
def collectLegacy (clearCredentials : Bool) (fetchResult : Option JsObj)
    (env : LegacyEnv) (ans : LegacyAnswers) (fileIsFile : String → Bool)
    (readFile : String → Option String) (validateOk : String → Bool)
    (ensureAppOk : Bool) : List Event × Except JsError Unit :=
  let t0 := [Event.fetchCreds]
  let flags :=
    match fetchResult with
    | none => (false, false, false)
    | some ex =>
      if clearCredentials then (false, false, false)
      else (truthy (getKey ex "appleId"), truthy (getKey ex "certP12"),
            truthy (getKey ex "pushP12"))
  let step1 :=
    if flags.1 then
      ([Event.validateCreds "ios" "appleId"],
       if validateOk "appleId" then Except.ok () else .error (.validationError "appleId"))
    else askForAppleId env ans validateOk
  let step2 :=
    if flags.2.1 then
      ([Event.validateCreds "ios" "cert"],
       if validateOk "cert" then Except.ok () else .error (.validationError "cert"))
    else askForCerts env ans fileIsFile readFile validateOk
  let step3 : List Event × Except JsError Unit :=
    ([Event.ensureAppIdRemote],
     if ensureAppOk then Except.ok () else .error (.xdlError "CREDENTIAL_ERROR"))
  let step4 :=
    if flags.2.2 then
      ([Event.validateCreds "ios" "push"],
       if validateOk "push" then Except.ok () else .error (.validationError "push"))
    else askForPushCerts env ans fileIsFile readFile validateOk
  seqE ((t0 ++ step1.1, step1.2) : List Event × Except JsError Unit) fun _ =>
  seqE step2 fun _ =>
  seqE step3 fun _ =>
  step4

/-- IOSBuilder.run (legacy revision, lines 465-499): throw INVALID_OPTIONS
before any network call when the bundle identifier is missing; then check
build status, collect and validate credentials unless the build is for
the simulator, and finally publish and build. -/
def runLegacy (info : PublishInfo) (opts : BuildOptions) (fetchResult : Option JsObj)
    (env : LegacyEnv) (ans : LegacyAnswers) (fileIsFile : String → Bool)
    (readFile : String → Option String) (validateOk : String → Bool)
    (ensureAppOk : Bool) : List Event × Except JsError Unit :=
  if truthy info.bundleIdentifier = false then
    ([], .error (.xdlError "INVALID_OPTIONS"))
  else
    let t0 := [Event.checkStatus]
    if opts.buildType ≠ some "simulator" then
      match collectLegacy opts.clearCredentials fetchResult env ans fileIsFile readFile
          validateOk ensureAppOk with
      | (t, .error e) => (t0 ++ t, .error e)
      | (t, .ok _) => (t0 ++ t ++ [Event.publish, Event.build "ios"], .ok ())
    else
      (t0 ++ [Event.publish, Event.build "ios"], .ok ())

/-- Shared default operator answers for concrete evaluations (their values
are irrelevant to the branch under test). -/
def anyAnswers : PromptAnswers :=
  ⟨true, "apple@example.com", "pw", true, true, "dist.p12", "dpw", "push.p12", "ppw", "profile.mobileprovision"⟩

/-- Shared default service replies for concrete evaluations: every call
succeeds and carries only its result field plus a team id where relevant. -/
def anySvc : ServiceReplies :=
  ⟨[("result", .str "success"), ("teamId", .str "T1")],
   [("result", .str "success")],
   [("result", .str "success")],
   [("result", .str "success")],
   [("result", .str "success")],
   [("result", .str "success")]⟩

/-- Shared default CI environment for concrete evaluations of branches
that never read it. -/
def anyCIEnv : CIEnv := ⟨none, none, none, none, none, none⟩

/-- Shared default file-system oracle: every read fails (used only where
no read happens). -/
def anyReadFile : String → Option String := fun _ => none

/-- Concrete CI environment for the C1 counterexample: all three path
variables and both passwords are set, but EXP_APPLE_TEAM_ID is not — the
teamId slot has no environment mapping. -/
def c1Env : CIEnv :=
  ⟨none, some "dist.p12", some "distpw", some "push.p12", some "pushpw", some "profile.mobileprovision"⟩

/-- Concrete file-system oracle for the C1 counterexample: every named
file exists; its base64 content is b64. followed by the path. -/
def c1ReadFile : String → Option String := fun p => some ("b64." ++ p)

/-- The bundle the CI branch commits under c1Env: every obligatory key is
present as an object property, but teamId holds undefined. -/
def c1Bundle : JsObj :=
  [("teamId", .jsUndefined), ("certP12", .str "b64.dist.p12"), ("certPassword", .str "distpw"),
   ("pushP12", .str "b64.push.p12"), ("pushPassword", .str "pushpw"),
   ("provisioningProfile", .str "b64.profile.mobileprovision")]

/-- Operator answers for the C2 counterexample: fully service-managed
resolution. -/
def c2Ans : PromptAnswers :=
  ⟨true, "apple@example.com", "pw", true, true, "dist.p12", "dpw", "push.p12", "ppw", "profile.mobileprovision"⟩

/-- Service replies for the C2 counterexample: every call succeeds but the
managed-generation replies carry no credential payload fields (the reply
shape is the external auth module's, not constrained by this repository). -/
def c2Svc : ServiceReplies :=
  ⟨[("result", .str "success"), ("teamId", .str "T1")],
   [("result", .str "success")],
   [("result", .str "success")],
   [("result", .str "success")],
   [("result", .str "success")],
   [("result", .str "success")]⟩

/-- The bundle the C2 counterexample run commits: only teamId. -/
def c2Committed : JsObj := [("teamId", .str "T1")]

/-- Cached bundle for the C3 counterexample: every obligatory key present,
with the distribution certificate value OLD. -/
def c3Cached : JsObj :=
  [("certP12", .str "OLD"), ("certPassword", .str "opw"), ("pushP12", .str "opp"),
   ("pushPassword", .str "oppw"), ("provisioningProfile", .str "oprof"), ("teamId", .str "OT")]

/-- CI-style environment for the C3 counterexample: the distribution
certificate override is fully specified (path and password). -/
def c3Env : CIEnv := ⟨some "NT", some "new.p12", some "newpw", none, none, none⟩

/-- File-system oracle for the C3 counterexample: the override file exists
with base64 content NEW. -/
def c3ReadFile : String → Option String := fun p => if p == "new.p12" then some "NEW" else none

/-- Project info for the C9 counterexample: a valid bundle identifier. -/
def c9Info : PublishInfo := ⟨"user", "exp", .str "com.example.app"⟩

/-- Options for the C9 counterexample: a simulator build with
clearCredentials set. -/
def c9Opts : BuildOptions := ⟨true, false, some "simulator"⟩

/-- Legacy environment for the C8 evaluation: neither push-certificate
variable (nor any other) is set. -/
def c8Env : LegacyEnv := ⟨none, none, none, none, none, none, none⟩

/-- Operator answers for the C8 evaluation. -/
def c8Ans : LegacyAnswers := ⟨"a", "p", "t", true, "cp12", "cpw", "pp12", "ppw"⟩

/-- Whether a trace contains an upsert call. -/
def hasUpdate (t : List Event) : Bool :=
  t.any (fun e => match e with | .updateCreds _ _ => true | _ => false)

theorem getKey_cons_self (k : String) (v : JsValue) (rest : JsObj) :
    getKey ((k, v) :: rest) k = v := by
  simp [getKey]

theorem getKey_cons_ne (k1 k : String) (v : JsValue) (rest : JsObj) (h : k1 ≠ k) :
    getKey ((k1, v) :: rest) k = getKey rest k := by
  have hb : (k1 == k) = false := beq_eq_false_iff_ne.mpr h
  simp [getKey, List.find?, hb]

theorem getKey_setKey_self (o : JsObj) (k : String) (v : JsValue) :
    getKey (setKey o k v) k = v := by
  induction o with
  | nil => simp [setKey, getKey]
  | cons p rest ih =>
    obtain ⟨k1, v1⟩ := p
    by_cases h : k1 = k
    · subst h
      simp [setKey, getKey]
    · simp only [setKey, beq_iff_eq, h, if_false]
      rw [getKey_cons_ne _ _ _ _ h]
      exact ih

theorem getKey_setKey_ne (o : JsObj) (k1 k : String) (v : JsValue) (h : k1 ≠ k) :
    getKey (setKey o k1 v) k = getKey o k := by
  induction o with
  | nil =>
    have hb : (k1 == k) = false := beq_eq_false_iff_ne.mpr h
    simp [setKey, getKey, List.find?, hb]
  | cons p rest ih =>
    obtain ⟨k2, v2⟩ := p
    by_cases h2 : k2 = k1
    · subst h2
      simp only [setKey, beq_self_eq_true, if_true]
      rw [getKey_cons_ne _ _ _ _ h, getKey_cons_ne _ _ _ _ h]
    · simp only [setKey, beq_iff_eq, h2, if_false]
      by_cases h3 : k2 = k
      · subst h3
        rw [getKey_cons_self, getKey_cons_self]
      · rw [getKey_cons_ne _ _ _ _ h3, getKey_cons_ne _ _ _ _ h3]
        exact ih

theorem hasKey_iff_mem (o : JsObj) (k : String) :
    hasKey o k = true ↔ k ∈ o.map Prod.fst := by
  simp [hasKey, List.any_eq_true, List.mem_map]

theorem getKey_copyOver_of_not_hasKey (attempt : JsObj) :
    ∀ (starter : JsObj) (k : String), hasKey attempt k = false →
    getKey (copyOverAsString starter attempt) k = getKey starter k := by
  induction attempt with
  | nil =>
    intro s k _
    simp [copyOverAsString]
  | cons p rest ih =>
    intro s k h
    obtain ⟨k1, v1⟩ := p
    simp only [hasKey, List.any_cons, Bool.or_eq_false_iff, beq_eq_false_iff_ne] at h
    simp only [copyOverAsString]
    rw [ih _ _ (by simp [hasKey, h.2]), getKey_setKey_ne _ _ _ _ h.1]

theorem getKey_copyOver_mem (attempt : JsObj) :
    ∀ (starter : JsObj) (k : String),
    (attempt.map Prod.fst).Nodup → hasKey attempt k = true →
    getKey (copyOverAsString starter attempt) k = coerceForCopy (getKey attempt k) := by
  induction attempt with
  | nil =>
    intro s k _ h
    simp [hasKey] at h
  | cons p rest ih =>
    intro s k hnd h
    obtain ⟨k1, v1⟩ := p
    simp only [List.map_cons, List.nodup_cons] at hnd
    by_cases hk : k1 = k
    · subst hk
      have hrest : hasKey rest k1 = false := by
        rw [Bool.eq_false_iff]
        intro hc
        exact hnd.1 ((hasKey_iff_mem rest k1).mp hc)
      simp only [copyOverAsString]
      rw [getKey_copyOver_of_not_hasKey rest _ _ hrest, getKey_setKey_self,
        getKey_cons_self]
    · have h' : hasKey rest k = true := by
        simp only [hasKey, List.any_cons, Bool.or_eq_true] at h
        rcases h with h | h
        · exact absurd (by simpa using h) hk
        · simpa [hasKey] using h
      simp only [copyOverAsString]
      rw [ih _ _ hnd.2 h', getKey_cons_ne _ _ _ _ hk]

theorem coerceForCopy_str (s : String) : coerceForCopy (.str s) = .str s := rfl

theorem coerceForCopy_isStr (v : JsValue) (h : v ≠ .jsUndefined) :
    isStr (coerceForCopy v) = true := by
  cases v <;> simp_all [coerceForCopy, isStr, jsonStringify]

/-- C10 counterexample: _copyOverAsString applied to an object whose
teamId property holds undefined (exactly what runningAsCI builds when
EXP_APPLE_TEAM_ID is unset) stores undefined — not a string — because
JSON.stringify(undefined) evaluates to undefined. This refutes the claim
that every value the resolution flow writes into the bundle is a
string. -/
theorem c10_counterexample :
    copyOverAsString [] [("teamId", JsValue.jsUndefined)] = [("teamId", JsValue.jsUndefined)]
    ∧ isStr (getKey (copyOverAsString [] [("teamId", JsValue.jsUndefined)]) "teamId") = false :=
  ⟨rfl, rfl⟩

/-- C10 (amended): for every key _copyOverAsString copies, a string-typed
source value is copied verbatim and a non-string source value is replaced
by JSON.stringify of it — which is a string for every defined value
(booleans, null, objects); an undefined source value, however, is stored
as undefined, the lone exception forced by the counterexample. -/
theorem c10_amended (starter attempt : JsObj) (k : String)
    (hnd : (attempt.map Prod.fst).Nodup) (hk : hasKey attempt k = true) :
    getKey (copyOverAsString starter attempt) k = coerceForCopy (getKey attempt k)
    ∧ (∀ s, getKey attempt k = .str s →
        getKey (copyOverAsString starter attempt) k = .str s)
    ∧ (getKey attempt k ≠ .jsUndefined →
        isStr (getKey (copyOverAsString starter attempt) k) = true) := by
  have hmain := getKey_copyOver_mem attempt starter k hnd hk
  refine ⟨hmain, ?_, ?_⟩
  · intro s hs
    rw [hmain, hs, coerceForCopy_str]
  · intro hu
    rw [hmain]
    exact coerceForCopy_isStr _ hu

theorem c10_amended_witness :
    (([("x", JsValue.jsBool true)] : JsObj).map Prod.fst).Nodup
    ∧ hasKey [("x", JsValue.jsBool true)] "x" = true
    ∧ (getKey (copyOverAsString [] [("x", JsValue.jsBool true)]) "x"
        = coerceForCopy (getKey [("x", JsValue.jsBool true)] "x")
      ∧ (∀ s, getKey [("x", JsValue.jsBool true)] "x" = .str s →
          getKey (copyOverAsString [] [("x", JsValue.jsBool true)]) "x" = .str s)
      ∧ (getKey [("x", JsValue.jsBool true)] "x" ≠ .jsUndefined →
          isStr (getKey (copyOverAsString [] [("x", JsValue.jsBool true)]) "x") = true)) :=
  ⟨by simp, by decide,
   c10_amended [] [("x", JsValue.jsBool true)] "x" (by simp) (by decide)⟩

/-- C5 (confirmed): AndroidBuilder._clearCredentials issues the remote
deletion call exactly when the operator answers the confirmation prompt
affirmatively; when the operator declines, no remote mutation occurs and
the flow returns normally (so declining any number of times leaves the
stored bundle unchanged). -/
theorem c5_clear_gate (localKeystoreExists confirm : Bool) :
    (clearCredentialsAndroid localKeystoreExists confirm).2 = .ok ()
    ∧ ((Event.removeCreds "android" ∈ (clearCredentialsAndroid localKeystoreExists confirm).1)
        ↔ confirm = true) := by
  cases confirm <;> simp [clearCredentialsAndroid]

theorem c5_clear_gate_witness :
    (clearCredentialsAndroid true true).2 = .ok ()
    ∧ ((Event.removeCreds "android" ∈ (clearCredentialsAndroid true true).1)
        ↔ true = true) :=
  c5_clear_gate true true

/-- C4 (confirmed): in _ensureAppExists the corrective remote app creation
runs exactly when the existence check fails with the retryable
NO_BUNDLE_ID reason, and then exactly once — the call trace is either the
single check or the check followed by one creation, never more; and when
the reply obtained after the corrective action is again a failure (for
any reason) it is thrown as a terminal error, with no further call. -/
theorem c4_retry_bounded (nb : String) (svcE svcC cs : JsObj) :
    ((ensureAppExistsM nb svcE svcC cs).1 = [Event.ensureAppIdLocal]
      ∨ (ensureAppExistsM nb svcE svcC cs).1 = [Event.ensureAppIdLocal, Event.createAppPortal])
    ∧ ((ensureAppExistsM nb svcE svcC cs).1 = [Event.ensureAppIdLocal, Event.createAppPortal]
        ↔ failureReasonStartsWith svcE nb = .ok true)
    ∧ (failureReasonStartsWith svcE nb = .ok true → isFailure svcC = true →
        (ensureAppExistsM nb svcE svcC cs).2
          = .error (.serviceFailure (getKey svcC "reason") (getKey svcC "rawDump"))) := by
  unfold ensureAppExistsM
  rcases hfr : failureReasonStartsWith svcE nb with e | retry
  · simp [hfr]
  · cases retry
    · rcases ht : throwIfFailureWithReasonDump svcE with e | u <;> simp [hfr, ht]
    · by_cases hf2 : isFailure svcC = true
      · have ht : throwIfFailureWithReasonDump svcC
            = .error (.serviceFailure (getKey svcC "reason") (getKey svcC "rawDump")) := by
          simp [throwIfFailureWithReasonDump, hf2]
        simp [hfr, ht]
      · have ht : throwIfFailureWithReasonDump svcC = .ok () := by
          simp [throwIfFailureWithReasonDump, hf2]
        simp [hfr, ht, hf2]

theorem c4_retry_bounded_witness :
    ((ensureAppExistsM "NB" [("result", JsValue.str "failure"), ("reason", JsValue.str "NB: app missing")]
        [("result", JsValue.str "failure"), ("reason", JsValue.str "other")] []).1
        = [Event.ensureAppIdLocal]
      ∨ (ensureAppExistsM "NB" [("result", JsValue.str "failure"), ("reason", JsValue.str "NB: app missing")]
        [("result", JsValue.str "failure"), ("reason", JsValue.str "other")] []).1
        = [Event.ensureAppIdLocal, Event.createAppPortal])
    ∧ ((ensureAppExistsM "NB" [("result", JsValue.str "failure"), ("reason", JsValue.str "NB: app missing")]
        [("result", JsValue.str "failure"), ("reason", JsValue.str "other")] []).1
        = [Event.ensureAppIdLocal, Event.createAppPortal]
        ↔ failureReasonStartsWith [("result", JsValue.str "failure"), ("reason", JsValue.str "NB: app missing")] "NB" = .ok true)
    ∧ (failureReasonStartsWith [("result", JsValue.str "failure"), ("reason", JsValue.str "NB: app missing")] "NB" = .ok true →
        isFailure [("result", JsValue.str "failure"), ("reason", JsValue.str "other")] = true →
        (ensureAppExistsM "NB" [("result", JsValue.str "failure"), ("reason", JsValue.str "NB: app missing")]
          [("result", JsValue.str "failure"), ("reason", JsValue.str "other")] []).2
          = .error (.serviceFailure (getKey [("result", JsValue.str "failure"), ("reason", JsValue.str "other")] "reason")
              (getKey [("result", JsValue.str "failure"), ("reason", JsValue.str "other")] "rawDump"))) :=
  c4_retry_bounded "NB" [("result", JsValue.str "failure"), ("reason", JsValue.str "NB: app missing")]
    [("result", JsValue.str "failure"), ("reason", JsValue.str "other")] []

/-- C6 (confirmed): when the provisioning-profile generation reply is a
failure, produceProvisionProfile makes exactly one generation call (the
operation is never retried), logs the remediation hint exactly when the
reason starts with the MULTIPLE_PROFILES tag, and surfaces the failure to
the caller as a thrown terminal error carrying the reason and raw
dump. -/
theorem c6_multiple_profiles_terminal (mp : String) (svcReply cs : JsObj) (r : String)
    (hr : getKey svcReply "reason" = .str r) (hf : isFailure svcReply = true) :
    (produceProvisionProfileM mp svcReply cs).1
      = [Event.produceProvisionCall]
        ++ (if r.startsWith mp then [Event.warnRemoveProfileHint] else [])
    ∧ (produceProvisionProfileM mp svcReply cs).2
      = .error (.serviceFailure (.str r) (getKey svcReply "rawDump")) := by
  unfold produceProvisionProfileM failureReasonStartsWith throwIfFailureWithReasonDump
  rw [hr]
  simp only [hf, if_true]
  by_cases hs : r.startsWith mp = true
  · simp [hs]
  · simp [Bool.eq_false_iff.mpr hs]

theorem c6_multiple_profiles_terminal_witness :
    getKey [("result", JsValue.str "failure"), ("reason", JsValue.str "MULT: two profiles")] "reason"
      = .str "MULT: two profiles"
    ∧ isFailure [("result", JsValue.str "failure"), ("reason", JsValue.str "MULT: two profiles")] = true
    ∧ ((produceProvisionProfileM "MULT" [("result", JsValue.str "failure"), ("reason", JsValue.str "MULT: two profiles")] []).1
        = [Event.produceProvisionCall]
          ++ (if ("MULT: two profiles").startsWith "MULT" then [Event.warnRemoveProfileHint] else [])
      ∧ (produceProvisionProfileM "MULT" [("result", JsValue.str "failure"), ("reason", JsValue.str "MULT: two profiles")] []).2
        = .error (.serviceFailure (.str "MULT: two profiles")
            (getKey [("result", JsValue.str "failure"), ("reason", JsValue.str "MULT: two profiles")] "rawDump"))) :=
  ⟨rfl, by decide,
   c6_multiple_profiles_terminal "MULT"
     [("result", JsValue.str "failure"), ("reason", JsValue.str "MULT: two profiles")] []
     "MULT: two profiles" rfl (by decide)⟩

/-- C7 (confirmed): in both revisions of IOSBuilder.run, a missing (falsy)
bundle identifier raises the INVALID_OPTIONS configuration error with an
empty event trace — no build-status check, credential fetch, deletion,
upsert, prompt or managed-generation call is attempted. -/
theorem c7_missing_bundle_id_no_network
    (info : PublishInfo) (opts : BuildOptions) (fetchResult : Option JsObj)
    (env : CIEnv) (readFile : String → Option String) (ans : PromptAnswers)
    (svc : ServiceReplies) (nb mp : String)
    (lenv : LegacyEnv) (lans : LegacyAnswers) (fileIsFile : String → Bool)
    (readFile2 : String → Option String) (validateOk : String → Bool) (ensureAppOk : Bool)
    (h : truthy info.bundleIdentifier = false) :
    runV1 info opts fetchResult env readFile ans svc nb mp
      = ([], .error (.xdlError "INVALID_OPTIONS"))
    ∧ runLegacy info opts fetchResult lenv lans fileIsFile readFile2 validateOk ensureAppOk
      = ([], .error (.xdlError "INVALID_OPTIONS")) := by
  constructor
  · simp [runV1, h]
  · simp [runLegacy, h]

theorem c7_missing_bundle_id_no_network_witness :
    truthy (PublishInfo.mk "user" "exp" JsValue.jsUndefined).bundleIdentifier = false
    ∧ (runV1 ⟨"user", "exp", JsValue.jsUndefined⟩ ⟨false, false, none⟩ none anyCIEnv anyReadFile
        anyAnswers anySvc "NB" "MP"
        = ([], .error (.xdlError "INVALID_OPTIONS"))
      ∧ runLegacy ⟨"user", "exp", JsValue.jsUndefined⟩ ⟨false, false, none⟩ none c8Env c8Ans
          (fun _ => true) anyReadFile (fun _ => true) true
          = ([], .error (.xdlError "INVALID_OPTIONS"))) :=
  ⟨rfl,
   c7_missing_bundle_id_no_network ⟨"user", "exp", JsValue.jsUndefined⟩ ⟨false, false, none⟩ none
     anyCIEnv anyReadFile anyAnswers anySvc "NB" "MP" c8Env c8Ans
     (fun _ => true) anyReadFile (fun _ => true) true rfl⟩

/-- C9 counterexample: a simulator build run with clearCredentials set
performs a credential-store mutation — the new-revision run deletes the
stored credentials before it reaches the simulator check, so the trace of
a simulator run contains removeCredentialsForPlatform. This refutes the
claim that with simulatorOnly set the orchestrator performs no
credential-store mutation. -/
theorem c9_counterexample :
    runV1 c9Info c9Opts none anyCIEnv anyReadFile anyAnswers anySvc "NB" "MP"
      = ([Event.checkStatus, Event.removeCreds "ios", Event.warnRemovedCreds,
          Event.publish, Event.build "ios"], .ok ())
    ∧ c9Opts.buildType = some "simulator"
    ∧ c9Opts.clearCredentials = true :=
  ⟨rfl, rfl, rfl⟩

/-- C9 (amended): with simulatorOnly set, the orchestrator performs no
credential resolution, validation or upsert; the only possible
credential-store operation is the deletion triggered by clearCredentials,
which runs before the simulator check. In particular, without
clearCredentials a new-revision simulator run touches no credentials at
all, and a legacy-revision simulator run never touches credentials. -/
theorem c9_simulator_no_credential_ops
    (info : PublishInfo) (opts : BuildOptions) (fetchResult : Option JsObj)
    (env : CIEnv) (readFile : String → Option String) (ans : PromptAnswers)
    (svc : ServiceReplies) (nb mp : String)
    (lenv : LegacyEnv) (lans : LegacyAnswers) (fileIsFile : String → Bool)
    (readFile2 : String → Option String) (validateOk : String → Bool) (ensureAppOk : Bool)
    (hsim : opts.buildType = some "simulator")
    (hbid : truthy info.bundleIdentifier = true) :
    (opts.clearCredentials = false →
      runV1 info opts fetchResult env readFile ans svc nb mp
        = ([Event.checkStatus, Event.publish, Event.build "ios"], .ok ())
      ∧ (runV1 info opts fetchResult env readFile ans svc nb mp).1.all
          (fun e => !isCredentialOpEvt e) = true)
    ∧ runLegacy info opts fetchResult lenv lans fileIsFile readFile2 validateOk ensureAppOk
        = ([Event.checkStatus, Event.publish, Event.build "ios"], .ok ())
    ∧ (runLegacy info opts fetchResult lenv lans fileIsFile readFile2 validateOk
        ensureAppOk).1.all (fun e => !isCredentialOpEvt e) = true := by
  refine ⟨fun hclear => ⟨?_, ?_⟩, ?_, ?_⟩
  · simp [runV1, hsim, hclear, hbid]
  · simp [runV1, hsim, hclear, hbid, isCredentialOpEvt]
  · simp [runLegacy, hsim, hbid]
  · simp [runLegacy, hsim, hbid, isCredentialOpEvt]

theorem c9_simulator_no_credential_ops_witness :
    (⟨false, false, some "simulator"⟩ : BuildOptions).buildType = some "simulator"
    ∧ truthy (PublishInfo.mk "user" "exp" (JsValue.str "com.example.app")).bundleIdentifier = true
    ∧ (((⟨false, false, some "simulator"⟩ : BuildOptions).clearCredentials = false →
        runV1 ⟨"user", "exp", JsValue.str "com.example.app"⟩ ⟨false, false, some "simulator"⟩
          none anyCIEnv anyReadFile anyAnswers anySvc "NB" "MP"
          = ([Event.checkStatus, Event.publish, Event.build "ios"], .ok ())
        ∧ (runV1 ⟨"user", "exp", JsValue.str "com.example.app"⟩ ⟨false, false, some "simulator"⟩
            none anyCIEnv anyReadFile anyAnswers anySvc "NB" "MP").1.all
            (fun e => !isCredentialOpEvt e) = true)
      ∧ runLegacy ⟨"user", "exp", JsValue.str "com.example.app"⟩ ⟨false, false, some "simulator"⟩
          none c8Env c8Ans (fun _ => true) anyReadFile (fun _ => true) true
          = ([Event.checkStatus, Event.publish, Event.build "ios"], .ok ())
      ∧ (runLegacy ⟨"user", "exp", JsValue.str "com.example.app"⟩ ⟨false, false, some "simulator"⟩
          none c8Env c8Ans (fun _ => true) anyReadFile (fun _ => true) true).1.all
          (fun e => !isCredentialOpEvt e) = true) :=
  ⟨rfl, rfl,
   c9_simulator_no_credential_ops ⟨"user", "exp", JsValue.str "com.example.app"⟩
     ⟨false, false, some "simulator"⟩ none anyCIEnv anyReadFile anyAnswers anySvc "NB" "MP"
     c8Env c8Ans (fun _ => true) anyReadFile (fun _ => true) true rfl rfl⟩

/-- C8 (code bug): evaluation of askForPushCerts at the failing input —
interactive mode with neither EXP_PUSH_CERTIFICATE_PATH nor
EXP_PUSH_CERTIFICATE_PASSWORD set (and no cached push certificate, which
is what routes the legacy flow into askForPushCerts). Because every
when-handler of this question set reads the misspelled property name
manageCertificates (the real answer key is managePushCertificates), the
strategy prompt is never shown; the flow instead prompts for a P12 path
and a password, ignores those answers, and silently runs managed
generation (fetchPushCertificates). The sibling askForCerts flow spells
the key correctly and does show its strategy prompt, so the claim
describes the evident intent and the code is the slip. -/
theorem c8_push_strategy_prompt_never_shown :
    askForPushCerts c8Env c8Ans (fun _ => true) (fun _ => some "B64") (fun _ => true)
      = ([Event.prompt "pathToP12", Event.prompt "certPassword", Event.fetchPushCerts], .ok ())
    ∧ Event.prompt "managePushCertificates"
        ∉ (askForPushCerts c8Env c8Ans (fun _ => true) (fun _ => some "B64") (fun _ => true)).1
    ∧ c8Env.pushCertPath = none ∧ c8Env.pushCertPassword = none := by
  have htr : (askForPushCerts c8Env c8Ans (fun _ => true) (fun _ => some "B64")
      (fun _ => true)).1
      = [Event.prompt "pathToP12", Event.prompt "certPassword", Event.fetchPushCerts] := rfl
  refine ⟨rfl, ?_, rfl, rfl⟩
  rw [htr]
  simp

theorem runningAsCI_error_of_missing_path (env : CIEnv) (readFile : String → Option String)
    (cs : JsObj)
    (h : env.provProfilePath = none ∨ env.distCertPath = none ∨ env.pushCertPath = none) :
    ∃ e, runningAsCI env readFile cs = .error e := by
  unfold runningAsCI
  rcases hp : readEnvFile readFile env.provProfilePath with e | pc
  · exact ⟨e, rfl⟩
  · rcases hd : readEnvFile readFile env.distCertPath with e | dc
    · exact ⟨e, by simp [hp, hd]⟩
    · rcases hpu : readEnvFile readFile env.pushCertPath with e | puc
      · exact ⟨e, by simp [hp, hd, hpu]⟩
      · exfalso
        rcases h with h | h | h
        · rw [h] at hp
          simp [readEnvFile] at hp
        · rw [h] at hd
          simp [readEnvFile] at hd
        · rw [h] at hpu
          simp [readEnvFile] at hpu

/-- C1 counterexample: CI (non-interactive) mode with all three path
variables set to readable files but EXP_APPLE_TEAM_ID unset — the teamId
slot has no environment mapping at all. The run does not fail: it returns
normally and commits the bundle (whose teamId property holds undefined),
refuting the claim that any required slot lacking a complete environment
mapping makes run fail with a configuration error before committing. -/
theorem c1_counterexample :
    runLocalAuth true none c1Env c1ReadFile anyAnswers anySvc "NB" "MP"
      = ([Event.fetchCreds, Event.updateCreds "ios" c1Bundle, Event.warnEncrypted],
         .ok c1Bundle)
    ∧ c1Env.teamId = none
    ∧ getKey c1Bundle "teamId" = JsValue.jsUndefined :=
  ⟨rfl, rfl, rfl⟩

/-- C1 (amended): in CI mode no prompt and no managed-generation call is
ever issued, and when one of the three path environment variables is
unset the run does fail before any commit — but with a file-read error,
not a configuration error; a missing teamId or password variable causes
no failure at all (see the counterexample: the flow commits the bundle
with those entries undefined). -/
theorem c1_ci_incomplete_env
    (fetchResult : Option JsObj) (env : CIEnv) (readFile : String → Option String)
    (ans : PromptAnswers) (svc : ServiceReplies) (nb mp : String) :
    ((runLocalAuth true fetchResult env readFile ans svc nb mp).1.all
        (fun e => !isPromptEvt e && !isManagedGenEvt e) = true)
    ∧ ((env.provProfilePath = none ∨ env.distCertPath = none ∨ env.pushCertPath = none) →
        (∃ e, (runLocalAuth true fetchResult env readFile ans svc nb mp).2 = .error e)
        ∧ hasUpdate (runLocalAuth true fetchResult env readFile ans svc nb mp).1 = false) := by
  constructor
  · rcases fetchResult with _ | cs0
    · rcases hci : runningAsCI env readFile [] with e | cs
      · simp [runLocalAuth, hci, isPromptEvt, isManagedGenEvt]
      · simp only [runLocalAuth, Option.getD_none]
        rw [hci]
        split_ifs <;> simp [isPromptEvt, isManagedGenEvt]
    · rcases hci : runningAsCI env readFile cs0 with e | cs
      · simp only [runLocalAuth, Option.getD_some]
        rw [hci]
        split_ifs <;> simp [isPromptEvt, isManagedGenEvt]
      · simp only [runLocalAuth, Option.getD_some]
        rw [hci]
        split_ifs <;> simp [isPromptEvt, isManagedGenEvt]
  · intro hmiss
    obtain ⟨e, he⟩ := runningAsCI_error_of_missing_path env readFile (fetchResult.getD []) hmiss
    constructor
    · refine ⟨e, ?_⟩
      rcases fetchResult with _ | cs0
      · simp only [Option.getD_none] at he
        simp only [runLocalAuth, Option.getD_none]
        rw [he]
        simp
      · simp only [Option.getD_some] at he
        simp only [runLocalAuth, Option.getD_some]
        rw [he]
        split_ifs <;> simp
    · rcases fetchResult with _ | cs0
      · simp only [Option.getD_none] at he
        simp only [runLocalAuth, Option.getD_none]
        rw [he]
        simp [hasUpdate]
      · simp only [Option.getD_some] at he
        simp only [runLocalAuth, Option.getD_some]
        rw [he]
        split_ifs <;> simp [hasUpdate]

theorem c1_ci_incomplete_env_witness :
    ((⟨none, none, none, none, none, none⟩ : CIEnv).provProfilePath = none
      ∨ (⟨none, none, none, none, none, none⟩ : CIEnv).distCertPath = none
      ∨ (⟨none, none, none, none, none, none⟩ : CIEnv).pushCertPath = none)
    ∧ (((runLocalAuth true none ⟨none, none, none, none, none, none⟩ anyReadFile anyAnswers
          anySvc "NB" "MP").1.all (fun e => !isPromptEvt e && !isManagedGenEvt e) = true)
      ∧ ((((⟨none, none, none, none, none, none⟩ : CIEnv).provProfilePath = none
            ∨ (⟨none, none, none, none, none, none⟩ : CIEnv).distCertPath = none
            ∨ (⟨none, none, none, none, none, none⟩ : CIEnv).pushCertPath = none) →
          (∃ e, (runLocalAuth true none ⟨none, none, none, none, none, none⟩ anyReadFile
              anyAnswers anySvc "NB" "MP").2 = .error e)
          ∧ hasUpdate (runLocalAuth true none ⟨none, none, none, none, none, none⟩ anyReadFile
              anyAnswers anySvc "NB" "MP").1 = false))) :=
  ⟨Or.inl rfl,
   c1_ci_incomplete_env none ⟨none, none, none, none, none, none⟩ anyReadFile anyAnswers
     anySvc "NB" "MP"⟩

/-- C3 counterexample: interactive mode, a cached bundle holding every
obligatory key (certP12 = OLD), and a fully specified distribution-cert
environment override (path and password, the file readable with content
NEW). The flow short-circuits on the complete cached bundle: it returns
the cached values unchanged (certP12 stays OLD), never reads the
environment override, and issues no call beyond the fetch — refuting the
claim that a fully specified override is always used in preference to an
existing cached value. -/
theorem c3_counterexample :
    runLocalAuth false (some c3Cached) c3Env c3ReadFile anyAnswers anySvc "NB" "MP"
      = ([Event.fetchCreds], .ok c3Cached)
    ∧ getKey c3Cached "certP12" = .str "OLD"
    ∧ c3Env.distCertPath = some "new.p12"
    ∧ c3Env.distCertPassword = some "newpw"
    ∧ c3ReadFile "new.p12" = some "NEW" :=
  ⟨rfl, rfl, rfl, rfl, rfl⟩

/-- C3 (amended): environment overrides are honoured only when the flow
actually collects credentials. In CI mode the environment is always used:
the committed bundle carries the override values (file contents in
base64, passwords and team id verbatim) over whatever was cached, with no
prompt. In interactive mode, however, a cached bundle containing every
obligatory key short-circuits resolution: the cached values are used
unchanged and environment overrides are ignored (the counterexample). -/
theorem c3_env_override_when_collected :
    (∀ (cached : JsObj) (ans : PromptAnswers) (svc : ServiceReplies)
        (nb mp team dp dpw pp ppw pv cd cp cpr : String)
        (readFile : String → Option String),
      readFile dp = some cd → readFile pp = some cp → readFile pv = some cpr →
      ∃ cs,
        (runLocalAuth true (some cached) ⟨some team, some dp, some dpw, some pp, some ppw, some pv⟩
            readFile ans svc nb mp).2 = .ok cs
        ∧ getKey cs "teamId" = .str team
        ∧ getKey cs "certP12" = .str cd
        ∧ getKey cs "certPassword" = .str dpw
        ∧ getKey cs "pushP12" = .str cp
        ∧ getKey cs "pushPassword" = .str ppw
        ∧ getKey cs "provisioningProfile" = .str cpr
        ∧ (runLocalAuth true (some cached) ⟨some team, some dp, some dpw, some pp, some ppw, some pv⟩
            readFile ans svc nb mp).1.all (fun e => !isPromptEvt e) = true)
    ∧ (∀ (cached : JsObj) (env : CIEnv) (readFile : String → Option String)
        (ans : PromptAnswers) (svc : ServiceReplies) (nb mp : String),
      missingCreds cached = [] →
      runLocalAuth false (some cached) env readFile ans svc nb mp
        = ([Event.fetchCreds], .ok cached)) := by
  constructor
  · intro cached ans svc nb mp team dp dpw pp ppw pv cd cp cpr readFile h1 h2 h3
    have hci : runningAsCI ⟨some team, some dp, some dpw, some pp, some ppw, some pv⟩
        readFile cached
        = .ok (copyOverAsString cached
            [("teamId", .str team), ("certP12", .str cd), ("certPassword", .str dpw),
             ("pushP12", .str cp), ("pushPassword", .str ppw),
             ("provisioningProfile", .str cpr)]) := by
      simp [runningAsCI, readEnvFile, h1, h2, h3, optJs]
    have hnd : (([("teamId", JsValue.str team), ("certP12", JsValue.str cd),
        ("certPassword", JsValue.str dpw), ("pushP12", JsValue.str cp),
        ("pushPassword", JsValue.str ppw),
        ("provisioningProfile", JsValue.str cpr)] : JsObj).map Prod.fst).Nodup := by
      simp
    refine ⟨copyOverAsString cached
      [("teamId", .str team), ("certP12", .str cd), ("certPassword", .str dpw),
       ("pushP12", .str cp), ("pushPassword", .str ppw),
       ("provisioningProfile", .str cpr)], ?_, ?_, ?_, ?_, ?_, ?_, ?_, ?_⟩
    · simp only [runLocalAuth, Option.getD_some]
      rw [hci]
      split_ifs <;> simp
    · rw [getKey_copyOver_mem _ _ _ hnd (by simp [hasKey])]
      simp [getKey, List.find?, coerceForCopy, isStr]
    · rw [getKey_copyOver_mem _ _ _ hnd (by simp [hasKey])]
      simp [getKey, List.find?, coerceForCopy, isStr]
    · rw [getKey_copyOver_mem _ _ _ hnd (by simp [hasKey])]
      simp [getKey, List.find?, coerceForCopy, isStr]
    · rw [getKey_copyOver_mem _ _ _ hnd (by simp [hasKey])]
      simp [getKey, List.find?, coerceForCopy, isStr]
    · rw [getKey_copyOver_mem _ _ _ hnd (by simp [hasKey])]
      simp [getKey, List.find?, coerceForCopy, isStr]
    · rw [getKey_copyOver_mem _ _ _ hnd (by simp [hasKey])]
      simp [getKey, List.find?, coerceForCopy, isStr]
    · simp only [runLocalAuth, Option.getD_some]
      rw [hci]
      split_ifs <;> simp [isPromptEvt]
  · intro cached env readFile ans svc nb mp h
    simp [runLocalAuth, h]

theorem c3_env_override_when_collected_witness :
    ((fun _ => some "X" : String → Option String) "dp" = some "X"
      ∧ (fun _ => some "X" : String → Option String) "pp" = some "X"
      ∧ (fun _ => some "X" : String → Option String) "pv" = some "X"
      ∧ ∃ cs,
          (runLocalAuth true (some []) ⟨some "T", some "dp", some "dpw", some "pp", some "ppw", some "pv"⟩
              (fun _ => some "X") anyAnswers anySvc "NB" "MP").2 = .ok cs
          ∧ getKey cs "teamId" = .str "T"
          ∧ getKey cs "certP12" = .str "X"
          ∧ getKey cs "certPassword" = .str "dpw"
          ∧ getKey cs "pushP12" = .str "X"
          ∧ getKey cs "pushPassword" = .str "ppw"
          ∧ getKey cs "provisioningProfile" = .str "X"
          ∧ (runLocalAuth true (some []) ⟨some "T", some "dp", some "dpw", some "pp", some "ppw", some "pv"⟩
              (fun _ => some "X") anyAnswers anySvc "NB" "MP").1.all
              (fun e => !isPromptEvt e) = true)
    ∧ (missingCreds c3Cached = []
      ∧ runLocalAuth false (some c3Cached) anyCIEnv anyReadFile anyAnswers anySvc "NB" "MP"
          = ([Event.fetchCreds], .ok c3Cached)) :=
  ⟨⟨rfl, rfl, rfl,
    c3_env_override_when_collected.1 [] anyAnswers anySvc "NB" "MP" "T" "dp" "dpw" "pp" "ppw"
      "pv" "X" "X" "X" (fun _ => some "X") rfl rfl rfl⟩,
   ⟨rfl,
    c3_env_override_when_collected.2 c3Cached anyCIEnv anyReadFile anyAnswers anySvc "NB" "MP"
      rfl⟩⟩

theorem hasUpdate_append (t1 t2 : List Event) :
    hasUpdate (t1 ++ t2) = (hasUpdate t1 || hasUpdate t2) := by
  simp [hasUpdate, List.any_append]

theorem not_mem_update_of_hasUpdate_false (t : List Event) (h : hasUpdate t = false)
    (p : String) (c : JsObj) : Event.updateCreds p c ∉ t := by
  intro hm
  have ht : hasUpdate t = true :=
    List.any_eq_true.mpr ⟨Event.updateCreds p c, hm, rfl⟩
  rw [h] at ht
  exact Bool.false_ne_true ht

theorem hasUpdate_seqE {α β : Type} (r : List Event × Except JsError α)
    (f : α → List Event × Except JsError β)
    (hr : hasUpdate r.1 = false) (hf : ∀ a, hasUpdate (f a).1 = false) :
    hasUpdate (seqE r f).1 = false := by
  rcases r with ⟨t, res⟩
  cases res with
  | error e => simpa [seqE] using hr
  | ok a =>
    simp only [seqE, hasUpdate_append, Bool.or_eq_false_iff]
    exact ⟨by simpa using hr, hf a⟩

theorem hasUpdate_ensureAppExistsM (nb : String) (svcE svcC cs : JsObj) :
    hasUpdate (ensureAppExistsM nb svcE svcC cs).1 = false := by
  unfold ensureAppExistsM
  rcases hfr : failureReasonStartsWith svcE nb with e | retry
  · simp [hfr, hasUpdate]
  · cases retry
    · rcases ht : throwIfFailureWithReasonDump svcE with e | u <;>
        simp [hfr, ht, hasUpdate]
    · rcases ht : throwIfFailureWithReasonDump svcC with e | u <;>
        simp [hfr, ht, hasUpdate]

theorem hasUpdate_produceProvisionProfileM (mp : String) (svcReply cs : JsObj) :
    hasUpdate (produceProvisionProfileM mp svcReply cs).1 = false := by
  unfold produceProvisionProfileM
  rcases hfr : failureReasonStartsWith svcReply mp with e | multi
  · simp [hfr, hasUpdate]
  · rcases ht : throwIfFailureWithReasonDump svcReply with e | u <;>
      cases multi <;> simp [hfr, ht, hasUpdate]

theorem hasUpdate_userProvidedOverride (ans : PromptAnswers)
    (readFile : String → Option String) (cs : JsObj) (choice : OverrideChoice) :
    hasUpdate (userProvidedOverride ans readFile cs choice).1 = false := by
  cases choice
  · rcases h : readFile ans.distP12Path with _ | c <;>
      simp [userProvidedOverride, h, hasUpdate]
  · rcases h : readFile ans.pushP12Path with _ | c <;>
      simp [userProvidedOverride, h, hasUpdate]
  · rcases h : readFile ans.provProfilePathAnswer with _ | c <;>
      simp [userProvidedOverride, h, hasUpdate]

theorem hasUpdate_expoManagedResource (mp : String) (svc : ServiceReplies) (cs : JsObj)
    (choice : OverrideChoice) :
    hasUpdate (expoManagedResource mp svc cs choice).1 = false := by
  cases choice
  · rcases ht : throwIfFailureWithReasonDump svc.produceCerts with e | u <;>
      simp [expoManagedResource, ht, hasUpdate]
  · rcases ht : throwIfFailureWithReasonDump svc.producePushCerts with e | u <;>
      simp [expoManagedResource, ht, hasUpdate]
  · exact hasUpdate_produceProvisionProfileM mp svc.produceProvision cs

theorem hasUpdate_runningAsExpert (ans : PromptAnswers)
    (readFile : String → Option String) (cs : JsObj) :
    hasUpdate (runningAsExpert ans readFile cs).1 = false := by
  unfold runningAsExpert
  apply hasUpdate_seqE
  · exact hasUpdate_userProvidedOverride ans readFile cs .distCert
  · intro a
    apply hasUpdate_seqE
    · exact hasUpdate_userProvidedOverride ans readFile a .pushCert
    · intro b
      exact hasUpdate_userProvidedOverride ans readFile b .provisioningProfile

theorem hasUpdate_runningAsExpoManaged (mp : String) (ans : PromptAnswers)
    (svc : ServiceReplies) (readFile : String → Option String) (cs : JsObj) :
    hasUpdate (runningAsExpoManaged mp ans svc readFile cs).1 = false := by
  have hstep : ∀ (m : Bool) (c : JsObj) (ch : OverrideChoice),
      hasUpdate ((if m then expoManagedResource mp svc c ch
        else userProvidedOverride ans readFile c ch)).1 = false := by
    intro m c ch
    cases m
    · simpa using hasUpdate_userProvidedOverride ans readFile c ch
    · simpa using hasUpdate_expoManagedResource mp svc c ch
  unfold runningAsExpoManaged
  apply hasUpdate_seqE
  · simp [hasUpdate]
  · intro a
    apply hasUpdate_seqE
    · exact hstep ans.distCertExpoManaged a .distCert
    · intro b
      apply hasUpdate_seqE
      · exact hstep ans.pushCertExpoManaged b .pushCert
      · intro c
        exact hstep true c .provisioningProfile

theorem hasUpdate_validateCredsEnsureAppExistsM (nb : String) (ans : PromptAnswers)
    (svc : ServiceReplies) (cs : JsObj) :
    hasUpdate (validateCredsEnsureAppExistsM nb ans svc cs).1 = false := by
  unfold validateCredsEnsureAppExistsM
  rcases ht : throwIfFailureWithReasonDump svc.validateApple with e | u
  · simp [ht, hasUpdate]
  · simp only [ht, hasUpdate_append, Bool.or_eq_false_iff]
    exact ⟨by simp [hasUpdate],
      hasUpdate_ensureAppExistsM nb svc.ensureAppLocal svc.createAppPortal
        (setKey cs "teamId" (getKey svc.validateApple "teamId"))⟩

theorem hasUpdate_interactive_sub (nb mp : String) (ans : PromptAnswers)
    (svc : ServiceReplies) (readFile : String → Option String) (cs : JsObj) :
    hasUpdate (seqE (validateCredsEnsureAppExistsM nb ans svc cs) fun cs1 =>
      if ans.isExpoManaged then runningAsExpoManaged mp ans svc readFile cs1
      else runningAsExpert ans readFile cs1).1 = false := by
  apply hasUpdate_seqE
  · exact hasUpdate_validateCredsEnsureAppExistsM nb ans svc cs
  · intro a
    by_cases h : ans.isExpoManaged = true
    · simpa [h] using hasUpdate_runningAsExpoManaged mp ans svc readFile a
    · simpa [h] using hasUpdate_runningAsExpert ans readFile a

/-- C2 counterexample: an interactive fully-service-managed run in which
every service call succeeds but the generation replies carry no
credential payload fields (the reply shape belongs to the external auth
module and is not constrained by this repository). The resolved bundle
holds only teamId; _areCredsMissing merely logs the warning naming the
five missing obligatory slots, and updateCredentialsForPlatform is then
called anyway with the incomplete bundle — refuting the claim that the
operation fails before any commit when a required slot is missing. -/
theorem c2_counterexample :
    runLocalAuth false none anyCIEnv anyReadFile c2Ans c2Svc "NB" "MP"
      = ([Event.fetchCreds, Event.prompt "isExpoManaged", Event.prompt "appleId",
          Event.prompt "password", Event.validateApple, Event.ensureAppIdLocal,
          Event.prompt "distCert", Event.prompt "pushCert", Event.produceCertsCall,
          Event.producePushCertsCall, Event.produceProvisionCall,
          Event.warnMissing ["certP12", "certPassword", "pushP12", "pushPassword",
            "provisioningProfile"],
          Event.updateCreds "ios" c2Committed, Event.warnEncrypted],
         .ok c2Committed)
    ∧ missingCreds c2Committed ≠ [] :=
  ⟨rfl, by decide⟩


theorem mem_hasUpdate_false {t : List Event} (h : hasUpdate t = false) :
    ∀ x ∈ t, (fun e => match e with | Event.updateCreds _ _ => true | _ => false) x = false := by
  intro x hx
  by_contra hc
  have hb : (fun e => match e with
      | Event.updateCreds _ _ => true | _ => false) x = true := Bool.ne_false_iff.mp hc
  have ht : hasUpdate t = true := List.any_eq_true.mpr ⟨x, hx, hb⟩
  rw [h] at ht
  exact Bool.false_ne_true ht

/-- C2 (amended): in the new-revision flow the upsert is guarded only by
a warning, not by a failure. Every updateCredentialsForPlatform call in
any run targets the ios platform and, whenever the committed bundle is
missing obligatory slots, the same trace carries the _areCredsMissing
warning naming them — but the run does not fail, so an incomplete bundle
can be persisted (see the counterexample). What does hold without
exception: a run that throws never reaches the upsert, so a failed run
commits nothing. -/
theorem c2_upsert_warned_not_guarded (useCi : Bool) (fetchResult : Option JsObj)
    (env : CIEnv) (readFile : String → Option String) (ans : PromptAnswers)
    (svc : ServiceReplies) (nb mp : String) :
    (∀ p c,
      Event.updateCreds p c ∈ (runLocalAuth useCi fetchResult env readFile ans svc nb mp).1 →
      p = "ios"
      ∧ (missingCreds c = []
          ∨ Event.warnMissing (missingCreds c)
              ∈ (runLocalAuth useCi fetchResult env readFile ans svc nb mp).1))
    ∧ ((runLocalAuth useCi fetchResult env readFile ans svc nb mp).2.isOk = false →
        hasUpdate (runLocalAuth useCi fetchResult env readFile ans svc nb mp).1 = false) := by
  cases useCi
  case true =>
    rcases fetchResult with _ | cs0
    · rcases hci : runningAsCI env readFile [] with e | cs
      · constructor
        · intro p c hm
          simp [runLocalAuth, hci] at hm
        · intro _
          simp [runLocalAuth, hci, hasUpdate]
      · constructor
        · intro p c hm
          by_cases hmc : missingCreds cs = []
          · simp [runLocalAuth, hci, hmc] at hm
            obtain ⟨hp, hc⟩ := hm
            exact ⟨hp, Or.inl (hc ▸ hmc)⟩
          · simp [runLocalAuth, hci, hmc] at hm
            obtain ⟨hp, hc⟩ := hm
            refine ⟨hp, Or.inr ?_⟩
            subst hc
            simp [runLocalAuth, hci, hmc]
        · intro hko
          simp [runLocalAuth, hci, Except.isOk, Except.toBool] at hko
    · rcases hci : runningAsCI env readFile cs0 with e | cs
      · constructor
        · intro p c hm
          by_cases hmc0 : missingCreds cs0 = [] <;>
            simp [runLocalAuth, hci, hmc0] at hm
        · intro _
          by_cases hmc0 : missingCreds cs0 = [] <;>
            simp [runLocalAuth, hci, hmc0, hasUpdate]
      · constructor
        · intro p c hm
          by_cases hmc0 : missingCreds cs0 = [] <;> by_cases hmc : missingCreds cs = []
          · simp [runLocalAuth, hci, hmc0, hmc] at hm
            obtain ⟨hp, hc⟩ := hm
            exact ⟨hp, Or.inl (hc ▸ hmc)⟩
          · simp [runLocalAuth, hci, hmc0, hmc] at hm
            obtain ⟨hp, hc⟩ := hm
            refine ⟨hp, Or.inr ?_⟩
            subst hc
            simp [runLocalAuth, hci, hmc0, hmc]
          · simp [runLocalAuth, hci, hmc0, hmc] at hm
            obtain ⟨hp, hc⟩ := hm
            exact ⟨hp, Or.inl (hc ▸ hmc)⟩
          · simp [runLocalAuth, hci, hmc0, hmc] at hm
            obtain ⟨hp, hc⟩ := hm
            refine ⟨hp, Or.inr ?_⟩
            subst hc
            simp [runLocalAuth, hci, hmc0, hmc]
        · intro hko
          simp [runLocalAuth, hci, Except.isOk, Except.toBool] at hko
  case false =>
    rcases fetchResult with _ | cs0
    · rcases hs : seqE (validateCredsEnsureAppExistsM nb ans svc []) fun cs1 =>
          if ans.isExpoManaged then runningAsExpoManaged mp ans svc readFile cs1
          else runningAsExpert ans readFile cs1 with ⟨t, res⟩
      have hnu : hasUpdate t = false := by
        have h0 := hasUpdate_interactive_sub nb mp ans svc readFile []
        rw [hs] at h0
        exact h0
      cases res with
      | error e =>
        constructor
        · intro p c hm
          simp [runLocalAuth, hs] at hm
          exact absurd hm (not_mem_update_of_hasUpdate_false t hnu p c)
        · intro _
          simp [runLocalAuth, hs, hasUpdate, List.any_append]
          simpa [hasUpdate] using hnu
      | ok cs2 =>
        constructor
        · intro p c hm
          by_cases hmc : missingCreds (removeKey cs2 "result") = []
          · simp [runLocalAuth, hs, hmc] at hm
            rcases hm with hm | ⟨hp, hc⟩
            · exact absurd hm (not_mem_update_of_hasUpdate_false t hnu p c)
            · exact ⟨hp, Or.inl (hc ▸ hmc)⟩
          · simp [runLocalAuth, hs, hmc] at hm
            rcases hm with hm | ⟨hp, hc⟩
            · exact absurd hm (not_mem_update_of_hasUpdate_false t hnu p c)
            · refine ⟨hp, Or.inr ?_⟩
              subst hc
              simp [runLocalAuth, hs, hmc]
        · intro hko
          simp [runLocalAuth, hs, Except.isOk, Except.toBool] at hko
    · by_cases hmc0 : missingCreds cs0 = []
      · constructor
        · intro p c hm
          simp [runLocalAuth, hmc0] at hm
        · intro hko
          simp [runLocalAuth, hmc0, Except.isOk, Except.toBool] at hko
      · rcases hs : seqE (validateCredsEnsureAppExistsM nb ans svc cs0) fun cs1 =>
            if ans.isExpoManaged then runningAsExpoManaged mp ans svc readFile cs1
            else runningAsExpert ans readFile cs1 with ⟨t, res⟩
        have hnu : hasUpdate t = false := by
          have h0 := hasUpdate_interactive_sub nb mp ans svc readFile cs0
          rw [hs] at h0
          exact h0
        cases res with
        | error e =>
          constructor
          · intro p c hm
            simp [runLocalAuth, hs, hmc0] at hm
            exact absurd hm (not_mem_update_of_hasUpdate_false t hnu p c)
          · intro _
            simp [runLocalAuth, hs, hmc0, hasUpdate, List.any_append]
            simpa [hasUpdate] using hnu
        | ok cs2 =>
          constructor
          · intro p c hm
            by_cases hmc : missingCreds (removeKey cs2 "result") = []
            · simp [runLocalAuth, hs, hmc0, hmc] at hm
              rcases hm with hm | ⟨hp, hc⟩
              · exact absurd hm (not_mem_update_of_hasUpdate_false t hnu p c)
              · exact ⟨hp, Or.inl (hc ▸ hmc)⟩
            · simp [runLocalAuth, hs, hmc0, hmc] at hm
              rcases hm with hm | ⟨hp, hc⟩
              · exact absurd hm (not_mem_update_of_hasUpdate_false t hnu p c)
              · refine ⟨hp, Or.inr ?_⟩
                subst hc
                simp [runLocalAuth, hs, hmc0, hmc]
          · intro hko
            simp [runLocalAuth, hs, hmc0, Except.isOk, Except.toBool] at hko

theorem c2_upsert_warned_not_guarded_witness :
    (∀ p c,
      Event.updateCreds p c ∈ (runLocalAuth false none anyCIEnv anyReadFile c2Ans c2Svc "NB" "MP").1 →
      p = "ios"
      ∧ (missingCreds c = []
          ∨ Event.warnMissing (missingCreds c)
              ∈ (runLocalAuth false none anyCIEnv anyReadFile c2Ans c2Svc "NB" "MP").1))
    ∧ ((runLocalAuth false none anyCIEnv anyReadFile c2Ans c2Svc "NB" "MP").2.isOk = false →
        hasUpdate (runLocalAuth false none anyCIEnv anyReadFile c2Ans c2Svc "NB" "MP").1 = false) :=
  c2_upsert_warned_not_guarded false none anyCIEnv anyReadFile c2Ans c2Svc "NB" "MP"
